import Mathlib

/-!
Shallow embedding of the repository's two subsystems and proofs of the
claims about them.

Part 1 — `ЛР1/fib.py`: four ways of producing the Fibonacci sequence
(`fib_gen`, `fib_gen_simplified`, `fibonacchi_gen`, `fibonacchi_korutina`).

Part 2 — `ЛР2/main.py`: the Decorator pattern over a currency-rate
provider (`CBRProvider`, `YamlDecorator`, `CsvDecorator`), with the CSV
flattening and file-name logic embedded from the source.

Python integers are embedded as `Int` where the source subtracts, `Nat`
where it only adds; Python list indices coming from the caller are `Int`
so that negative-index behaviour is expressible.
-/

/-- Reference Fibonacci function: F(0)=0, F(1)=1, F(n)=F(n-1)+F(n-2). -/
def fibRef : Nat → Nat
  | 0 => 0
  | 1 => 1
  | n + 2 => fibRef n + fibRef (n + 1)

/-! ## `fib_gen` — the stateful iterator

`__init__` sets `a = 0`, `b = 1`; `__next__` saves `a`, does the in-place
update `b += a; a = b - a` and returns the saved value. -/

/-- One `__next__` call of `fib_gen`: from state `(a, b)` it returns the
pre-advance `a` and the updated state, computed exactly as the source does:
`b' = b + a`, then `a' = b' - a`. -/
def fib_gen_next (s : Int × Int) : Int × (Int × Int) :=
  let a := s.1
  let b' := s.2 + s.1
  let a' := b' - s.1
  (a, (a', b'))

/-- State of a fresh `fib_gen()` after `n` calls of `__next__`
(initial state `(0, 1)`). -/
def fib_gen_state : Nat → Int × Int
  | 0 => (0, 1)
  | n + 1 => (fib_gen_next (fib_gen_state n)).2

/-- Value returned by the `(n+1)`-st `__next__` call on a fresh `fib_gen()`. -/
def fib_gen_nth (n : Nat) : Int :=
  (fib_gen_next (fib_gen_state n)).1

/-! ## `fib_gen_simplified` — the memoized index accessor

`__init__` sets `self.sequence = [0, 1]`; `__getitem__(index)` raises
`IndexError("Negative indices not supported")` for `index < 0`, otherwise
extends the list with `sequence[-1] + sequence[-2]` while
`len(sequence) <= index`, and returns `sequence[index]`. -/

/-- The value appended by one iteration of the `while` loop:
`sequence[-1] + sequence[-2]` (Python negative indices: last and
second-to-last elements). -/
def fib_gen_simplified_next_val (seq : List Nat) : Nat :=
  seq.getD (seq.length - 1) 0 + seq.getD (seq.length - 2) 0

/-- `k` iterations of the `while` loop body: each appends
`sequence[-1] + sequence[-2]`. -/
def extendSeq (seq : List Nat) : Nat → List Nat
  | 0 => seq
  | k + 1 => extendSeq (seq ++ [fib_gen_simplified_next_val seq]) k

/-- Initial cache of a fresh `fib_gen_simplified()`. -/
def fib_gen_simplified_init : List Nat := [0, 1]

/-- `fib_gen_simplified.__getitem__`: the cache is explicit state; the
result is the returned value together with the cache after the call.  The
`while len(sequence) <= index` loop runs exactly `index + 1 - len` times
(zero when the cache already covers the index), which truncated `Nat`
subtraction expresses directly. -/
def fib_gen_simplified_getitem (seq : List Nat) (index : Int) :
    Except String (Nat × List Nat) :=
  if index < 0 then
    .error "Negative indices not supported"
  else
    let i := index.toNat
    let seq2 := extendSeq seq (i + 1 - seq.length)
    .ok (seq2.getD i 0, seq2)

/-- `fib_gen_simplified.__iter__`: yields `self[i]` for `i = start,
start+1, ...` against the shared mutable cache; `n` is the number of
values taken.  (On an in-range index `__getitem__` never raises; the
error branch is unreachable here and yields nothing further.) -/
def fib_gen_simplified_iter (seq : List Nat) : Nat → Nat → List Nat
  | 0, _ => []
  | n + 1, i =>
    match fib_gen_simplified_getitem seq (i : Int) with
    | .ok (v, seq') => v :: fib_gen_simplified_iter seq' n (i + 1)
    | .error _ => []

/-! ## `fibonacchi_gen` — the lazy generator

`a = 0; b = 1; while True: yield a; res = a + b; a = b; b = res`. -/

/-- State `(a, b)` of `fibonacchi_gen` when it is about to yield for the
`(n+1)`-st time. -/
def fibonacchi_gen_state : Nat → Nat × Nat
  | 0 => (0, 1)
  | n + 1 =>
    let s := fibonacchi_gen_state n
    (s.2, s.1 + s.2)

/-- The `(n+1)`-st value yielded by a fresh `fibonacchi_gen()`. -/
def fibonacchi_gen_nth (n : Nat) : Nat :=
  (fibonacchi_gen_state n).1

/-! ## `fibonacchi_korutina` — the one-shot coroutine

`index = yield; a = 0; b = 1; for _ in range(index): a, b = b, a + b;
yield a`.  `range(index)` is empty for `index <= 0`, which `Int.toNat`
expresses. -/

/-- The pair `(a, b)` after `k` iterations of the coroutine's `for` loop. -/
def fibonacchi_korutina_pair : Nat → Nat × Nat
  | 0 => (0, 1)
  | k + 1 =>
    let s := fibonacchi_korutina_pair k
    (s.2, s.1 + s.2)

/-- The value the coroutine yields after being sent `index`: the loop body
runs `range(index).length = index.toNat` times, then `a` is yielded. -/
def fibonacchi_korutina (index : Int) : Nat :=
  (fibonacchi_korutina_pair index.toNat).1

/-! ## The access pattern specified for the iterator

Modelled from the spec: "each produce-next operation returns the current
value and advances the state using the recurrence (a, b) → (b, a+b),
returning the pre-advance `a`". -/

/-- Specified step of the stateful iterator. -/
def specFibStep (s : Int × Int) : Int × (Int × Int) :=
  (s.1, (s.2, s.1 + s.2))

/-- State after `n` specified steps from `(0, 1)`. -/
def specFibState : Nat → Int × Int
  | 0 => (0, 1)
  | n + 1 => (specFibStep (specFibState n)).2

/-- Output of the `(n+1)`-st specified step from `(0, 1)`. -/
def specFibNth (n : Nat) : Int :=
  (specFibStep (specFibState n)).1

/-! ## Part 2 — `ЛР2/main.py`: the Decorator pattern over the rate provider

Python values flowing through the pipeline (parsed JSON, strings produced
by the decorators) are embedded as `PyVal`.  A Python number is carried by
its `str()` rendering, which is all the CSV writer uses of it.  Dicts are
association lists in insertion order, as Python dicts preserve insertion
order. -/

inductive PyVal where
  | pnone : PyVal
  | pbool : Bool → PyVal
  | pnum : String → PyVal
  | pstr : String → PyVal
  | plist : List PyVal → PyVal
  | pdict : List (String × PyVal) → PyVal

/-- Python exceptions that the embedded fragment can raise. -/
inductive PyErr where
  | attributeError : String → PyErr
  | typeError : String → PyErr

mutual

/-- Python `repr`, modelled for the value shapes above (strings are wrapped
in single quotes without escaping, which is exact for quote-free text). -/
def pyRepr : PyVal → String
  | .pnone => "None"
  | .pbool b => if b then "True" else "False"
  | .pnum s => s
  | .pstr s => "'" ++ s ++ "'"
  | .plist xs => "[" ++ String.intercalate ", " (pyReprList xs) ++ "]"
  | .pdict kvs => "\x7b" ++ String.intercalate ", " (pyReprFields kvs) ++ "\x7d"

/-- `repr` of the elements of a list. -/
def pyReprList : List PyVal → List String
  | [] => []
  | x :: xs => pyRepr x :: pyReprList xs

/-- `repr` of the entries of a dict. -/
def pyReprFields : List (String × PyVal) → List String
  | [] => []
  | (k, v) :: xs => ("'" ++ k ++ "': " ++ pyRepr v) :: pyReprFields xs

end

/-- Python `str`: the identity on strings, `repr` on everything else
(exact for numbers, booleans, `None`, lists and dicts). -/
def pyStr : PyVal → String
  | .pstr s => s
  | v => pyRepr v

/-- `n` spaces, used by the textual encoders. -/
def indentPad (n : Nat) : String :=
  String.mk (List.replicate n ' ')

/-! Models of the two external serializers the repository calls.  Neither
library is part of this repository; only totality, determinism and
insertion-order preservation of these encoders are relied on by the
claims. -/

mutual

/-- Modelled from the external call `json.dump(data, f, ensure_ascii=False,
indent=4)` in `CBRProvider.save_to_file`: pretty-printed JSON text,
non-ASCII preserved, 4-space indent. -/
def jsonVal : Nat → PyVal → String
  | _, .pnone => "null"
  | _, .pbool b => if b then "true" else "false"
  | _, .pnum s => s
  | _, .pstr s => "\"" ++ s ++ "\""
  | _, .plist [] => "[]"
  | ind, .plist (x :: xs) =>
    "[\n" ++ jsonItems (ind + 4) (x :: xs) ++ "\n" ++ indentPad ind ++ "]"
  | _, .pdict [] => "\x7b\x7d"
  | ind, .pdict (e :: es) =>
    "\x7b\n" ++ jsonFields (ind + 4) (e :: es) ++ "\n" ++ indentPad ind ++ "\x7d"

/-- Comma-and-newline separated JSON renderings of list elements. -/
def jsonItems : Nat → List PyVal → String
  | _, [] => ""
  | ind, [x] => indentPad ind ++ jsonVal ind x
  | ind, x :: y :: xs =>
    indentPad ind ++ jsonVal ind x ++ ",\n" ++ jsonItems ind (y :: xs)

/-- Comma-and-newline separated JSON renderings of dict entries. -/
def jsonFields : Nat → List (String × PyVal) → String
  | _, [] => ""
  | ind, [(k, v)] => indentPad ind ++ "\"" ++ k ++ "\": " ++ jsonVal ind v
  | ind, (k, v) :: e :: es =>
    indentPad ind ++ "\"" ++ k ++ "\": " ++ jsonVal ind v ++ ",\n" ++
      jsonFields ind (e :: es)

end

/-- JSON text of a whole value. -/
def jsonDump (v : PyVal) : String := jsonVal 0 v

mutual

/-- Modelled from the external call `yaml.dump(raw_data, allow_unicode=True,
sort_keys=False)` in `YamlDecorator.get_data`: block-style YAML with key
order preserved and Unicode kept verbatim (nested collections are rendered
inline by this model; no claim depends on the nested layout). -/
def yamlVal : Nat → PyVal → String
  | _, .pnone => "null"
  | _, .pbool b => if b then "true" else "false"
  | _, .pnum s => s
  | _, .pstr s => s
  | _, .plist [] => "[]"
  | ind, .plist (x :: xs) => yamlSeq ind (x :: xs)
  | _, .pdict [] => "\x7b\x7d"
  | ind, .pdict (e :: es) => yamlMap ind (e :: es)

/-- Block-sequence lines of a YAML list. -/
def yamlSeq : Nat → List PyVal → String
  | _, [] => ""
  | ind, x :: xs =>
    indentPad ind ++ "- " ++ yamlVal (ind + 2) x ++ "\n" ++ yamlSeq ind xs

/-- Block-mapping lines of a YAML dict. -/
def yamlMap : Nat → List (String × PyVal) → String
  | _, [] => ""
  | ind, (k, v) :: xs =>
    indentPad ind ++ k ++ ": " ++ yamlVal (ind + 2) v ++ "\n" ++ yamlMap ind xs

end

/-- YAML document text of a whole value. -/
def yamlDump (v : PyVal) : String :=
  match v with
  | .pdict (e :: es) => yamlMap 0 (e :: es)
  | .plist (x :: xs) => yamlSeq 0 (x :: xs)
  | w => yamlVal 0 w ++ "\n"

/-! ## `CsvDecorator._flatten_data` and the CSV writer -/

/-- One row produced by `_flatten_data`: a dict with exactly the keys
`CharCode`, `Name`, `Value`, `Nominal`, in that insertion order. -/
structure CsvRow where
  charCode : PyVal
  name : PyVal
  value : PyVal
  nominal : PyVal

/-- The row built for one `(code, info)` entry of the `Valute` mapping:
`info.get("CharCode", code)`, `info.get("Name", "")`, `info.get("Value", 0)`,
`info.get("Nominal", 1)`. -/
def flatten_row (code : String) (fields : List (String × PyVal)) : CsvRow where
  charCode := (List.lookup "CharCode" fields).getD (.pstr code)
  name := (List.lookup "Name" fields).getD (.pstr "")
  value := (List.lookup "Value" fields).getD (.pnum "0")
  nominal := (List.lookup "Nominal" fields).getD (.pnum "1")

/-- The `for code, info in valutes.items()` loop of `_flatten_data`:
one row per entry, in insertion order; `info.get` raises `AttributeError`
when `info` is not a dict. -/
def flatten_rows : List (String × PyVal) → Except PyErr (List CsvRow)
  | [] => .ok []
  | (code, info) :: rest =>
    match info with
    | .pdict fields =>
      match flatten_rows rest with
      | .ok rows => .ok (flatten_row code fields :: rows)
      | .error e => .error e
    | _ => .error (.attributeError "get")

/-- `CsvDecorator._flatten_data`: `valutes = data.get("Valute", {})`, then
the row loop.  `data.get` raises `AttributeError` when `data` is not a
dict; `valutes.items()` raises when the `Valute` value is not a dict. -/
def flatten_data (data : PyVal) : Except PyErr (List CsvRow) :=
  match data with
  | .pdict kvs =>
    match (List.lookup "Valute" kvs).getD (.pdict []) with
    | .pdict vs => flatten_rows vs
    | _ => .error (.attributeError "items")
  | _ => .error (.attributeError "get")

/-- Character membership in a string (Python's `c in s`), computed on the
character list so that the kernel can evaluate it. -/
def strContains (s : String) (c : Char) : Bool :=
  s.data.contains c

/-- Suffix test on strings (Python's `str.endswith`), computed on the
character lists so that the kernel can evaluate it. -/
def strEndsWith (s suffix : String) : Bool :=
  List.isSuffixOf suffix.data s.data

/-- Doubling of embedded quote characters, the effect of
`s.replace('"', '""')` on the character list. -/
def doubleQuotes : List Char → List Char
  | [] => []
  | c :: cs => if c = '"' then c :: c :: doubleQuotes cs else c :: doubleQuotes cs

/-- Split on the two-character terminator `\r\n`, used to speak about the
physical lines of the produced CSV text. -/
def crlfSplit : List Char → List Char → List String
  | acc, [] => [String.mk acc.reverse]
  | acc, '\r' :: '\n' :: rest => String.mk acc.reverse :: crlfSplit [] rest
  | acc, c :: rest => crlfSplit (c :: acc) rest

/-- The physical CRLF-separated lines of a string. -/
def crlfLines (s : String) : List String :=
  crlfSplit [] s.data

/-- QUOTE_MINIMAL of Python's `csv` module: a field is quoted exactly when
it contains the delimiter, the quote character, or a line-break character. -/
def csvNeedsQuoting (s : String) : Bool :=
  strContains s ',' || strContains s '"' || strContains s '\r' || strContains s '\n'

/-- Minimal quoting of one field (embedded quotes are doubled). -/
def csvQuote (s : String) : String :=
  if csvNeedsQuoting s then "\"" ++ String.mk (doubleQuotes s.data) ++ "\"" else s

/-- How `csv.writer` renders one cell value: `None` becomes the empty
string, everything else its `str()`. -/
def csvField (v : PyVal) : String :=
  match v with
  | .pnone => ""
  | v => csvQuote (pyStr v)

/-- One physical CSV record, ended by the default `\r\n` line terminator. -/
def csvLine (cells : List String) : String :=
  String.intercalate "," cells ++ "\r\n"

/-- The cells of one data row, in the field order fixed by
`flat_data[0].keys()`. -/
def csvRowCells (r : CsvRow) : List String :=
  [csvField r.charCode, csvField r.name, csvField r.value, csvField r.nominal]

/-- The fieldnames taken from the first row's keys. -/
def csvHeader : List String := ["CharCode", "Name", "Value", "Nominal"]

/-- Body of `CsvDecorator.get_data` after flattening: nothing is written
when `flat_data` is empty, otherwise `writeheader()` then `writerows`. -/
def csv_render (rows : List CsvRow) : String :=
  match rows with
  | [] => ""
  | _ :: _ =>
    csvLine (csvHeader.map csvQuote) ++
      String.join (rows.map (fun r => csvLine (csvRowCells r)))

/-! ## The provider chain -/

/-- A concrete provider object: the base `CBRProvider` (carrying the parsed
JSON value its network fetch would return) wrapped in zero or more
decorators. -/
inductive CurrencyProvider where
  | CBRProvider : PyVal → CurrencyProvider
  | YamlDecorator : CurrencyProvider → CurrencyProvider
  | CsvDecorator : CurrencyProvider → CurrencyProvider

/-- `get_data` of each class: the base returns its dataset; `YamlDecorator`
delegates inward and YAML-dumps the result; `CsvDecorator` delegates
inward, flattens and renders CSV text. -/
def get_data : CurrencyProvider → Except PyErr PyVal
  | .CBRProvider d => .ok d
  | .YamlDecorator p =>
    match get_data p with
    | .ok raw => .ok (.pstr (yamlDump raw))
    | .error e => .error e
  | .CsvDecorator p =>
    match get_data p with
    | .ok raw =>
      match flatten_data raw with
      | .ok rows => .ok (.pstr (csv_render rows))
      | .error e => .error e
    | .error e => .error e

/-- `save_to_file` of each class, with the file system abstracted to the
pair (actual file name, text written).  The decorators append their fixed
extension when the given name does not already end with it, then write the
local `get_data()` text verbatim. -/
def save_to_file : CurrencyProvider → String → Except PyErr (String × String)
  | .CBRProvider d, filename => .ok (filename, jsonDump d)
  | .YamlDecorator p, filename =>
    let fn := if strEndsWith filename ".yaml" || strEndsWith filename ".yml" then filename
      else filename ++ ".yaml"
    match get_data (.YamlDecorator p) with
    | .ok (.pstr s) => .ok (fn, s)
    | .ok v => .error (.typeError (pyStr v))
    | .error e => .error e
  | .CsvDecorator p, filename =>
    let fn := if strEndsWith filename ".csv" then filename else filename ++ ".csv"
    match get_data (.CsvDecorator p) with
    | .ok (.pstr s) => .ok (fn, s)
    | .ok v => .error (.typeError (pyStr v))
    | .error e => .error e

/-- Modelled from the claim's reading of the spec for C5: the persisted
file name gets the format's fixed extension appended exactly when the
given path lacks an extension, a path having an extension when it contains
a dot. -/
def claimYamlSaveName (p : String) : String :=
  if strContains p '.' then p else p ++ ".yaml"

/-- Same as `claimYamlSaveName` for the CSV decorator. -/
def claimCsvSaveName (p : String) : String :=
  if strContains p '.' then p else p ++ ".csv"

/-- A dataset is well-formed when its `Valute` entry, if present, is a
mapping whose values are all records (dicts), as the RateDataset shape
prescribes. -/
def WellFormedDataset (kvs : List (String × PyVal)) : Prop :=
  ∀ v, List.lookup "Valute" kvs = some v →
    ∃ vs, v = PyVal.pdict vs ∧ ∀ q ∈ vs, ∃ fields, q.2 = PyVal.pdict fields

/-- The record fields of the USD entry in the spec's concrete CSV test
dataset. -/
def usdFields : List (String × PyVal) :=
  [("CharCode", .pstr "USD"), ("Name", .pstr "Доллар"),
   ("Value", .pnum "90.0"), ("Nominal", .pnum "1")]

/-- The USD record of the concrete test dataset. -/
def usdRecord : PyVal := .pdict usdFields

/-- The entries of the concrete test dataset
`\x7b"Valute": \x7b"USD": \x7b...\x7d\x7d\x7d`. -/
def usdEntries : List (String × PyVal) :=
  [("Valute", .pdict [("USD", usdRecord)])]

/-- The concrete test dataset itself. -/
def usdDataset : PyVal := .pdict usdEntries

/-- Canonical cache content: the first `m` Fibonacci numbers. -/
def fibPrefixList (m : Nat) : List Nat :=
  (List.range m).map fibRef

/-- Cache states of `fib_gen_simplified` reachable from a fresh instance by
any sequence of `__getitem__` calls. -/
inductive FibSimplReachable : List Nat → Prop where
  | init : FibSimplReachable fib_gen_simplified_init
  | step {seq : List Nat} {index : Int} {v : Nat} {seq' : List Nat} :
      FibSimplReachable seq →
      fib_gen_simplified_getitem seq index = .ok (v, seq') →
      FibSimplReachable seq'

/-! ## Basic lemmas about the reference function and the cache shape -/

theorem fibPrefixList_length (m : Nat) : (fibPrefixList m).length = m := by
  simp [fibPrefixList]

theorem fibPrefixList_getD {m i : Nat} (h : i < m) :
    (fibPrefixList m).getD i 0 = fibRef i := by
  simp [fibPrefixList, List.getD, List.getElem?_map, List.getElem?_range h]

theorem fibPrefixList_succ (m : Nat) :
    fibPrefixList (m + 1) = fibPrefixList m ++ [fibRef m] := by
  simp [fibPrefixList, List.range_succ]

theorem next_val_fibPrefixList {m : Nat} (h : 2 ≤ m) :
    fib_gen_simplified_next_val (fibPrefixList m) = fibRef m := by
  obtain ⟨k, rfl⟩ : ∃ k, m = k + 2 := ⟨m - 2, by omega⟩
  have h1 : k + 2 - 1 < k + 2 := by omega
  have h2 : k + 2 - 2 < k + 2 := by omega
  rw [fib_gen_simplified_next_val, fibPrefixList_length,
    fibPrefixList_getD h1, fibPrefixList_getD h2]
  show fibRef (k + 1) + fibRef k = fibRef (k + 2)
  rw [fibRef]
  omega

theorem extendSeq_fibPrefixList_aux :
    ∀ (k m : Nat), 2 ≤ m → extendSeq (fibPrefixList m) k = fibPrefixList (m + k) := by
  intro k
  induction k with
  | zero => intro m _; rfl
  | succ k ih =>
    intro m hm
    rw [extendSeq, next_val_fibPrefixList hm, ← fibPrefixList_succ,
      ih (m + 1) (by omega)]
    congr 1
    omega

theorem extendSeq_fibPrefixList {m : Nat} (hm : 2 ≤ m) (k : Nat) :
    extendSeq (fibPrefixList m) k = fibPrefixList (m + k) :=
  extendSeq_fibPrefixList_aux k m hm

theorem extendSeq_length (k : Nat) :
    ∀ seq : List Nat, (extendSeq seq k).length = seq.length + k := by
  induction k with
  | zero => intro seq; rfl
  | succ k ih =>
    intro seq
    rw [extendSeq, ih]
    simp
    omega

theorem fib_gen_simplified_init_eq : fib_gen_simplified_init = fibPrefixList 2 := by
  decide

/-- Running `__getitem__` on a canonical cache returns the reference value
and leaves the canonical cache of length `max m (index+1)`. -/
theorem getitem_fibPrefixList {m : Nat} (hm : 2 ≤ m) {index : Int}
    (hi : 0 ≤ index) :
    fib_gen_simplified_getitem (fibPrefixList m) index =
      .ok (fibRef index.toNat, fibPrefixList (max m (index.toNat + 1))) := by
  rw [fib_gen_simplified_getitem, if_neg (by omega)]
  have hmax : m + (index.toNat + 1 - m) = max m (index.toNat + 1) := by omega
  simp only [fibPrefixList_length, extendSeq_fibPrefixList hm, hmax,
    fibPrefixList_getD (show index.toNat < max m (index.toNat + 1) by omega)]

/-! ## State characterizations of the three loop-based variants -/

theorem fib_gen_state_eq (n : Nat) :
    fib_gen_state n = ((fibRef n : Int), (fibRef (n + 1) : Int)) := by
  induction n with
  | zero => rfl
  | succ n ih =>
    simp only [fib_gen_state, ih, fib_gen_next, Prod.mk.injEq]
    rw [show fibRef (n + 2) = fibRef n + fibRef (n + 1) from rfl]
    constructor
    · omega
    · omega

theorem fibonacchi_gen_state_eq (n : Nat) :
    fibonacchi_gen_state n = (fibRef n, fibRef (n + 1)) := by
  induction n with
  | zero => rfl
  | succ n ih =>
    simp only [fibonacchi_gen_state, ih]
    rw [show fibRef (n + 2) = fibRef n + fibRef (n + 1) from rfl]

theorem fibonacchi_korutina_pair_eq (n : Nat) :
    fibonacchi_korutina_pair n = (fibRef n, fibRef (n + 1)) := by
  induction n with
  | zero => rfl
  | succ n ih =>
    simp only [fibonacchi_korutina_pair, ih]
    rw [show fibRef (n + 2) = fibRef n + fibRef (n + 1) from rfl]

theorem reachable_fibPrefixList {seq : List Nat} (h : FibSimplReachable seq) :
    ∃ m, 2 ≤ m ∧ seq = fibPrefixList m := by
  induction h with
  | init => exact ⟨2, le_refl 2, fib_gen_simplified_init_eq⟩
  | @step seq index v seq' _ hok ih =>
    obtain ⟨m, hm, rfl⟩ := ih
    by_cases hneg : index < 0
    · rw [fib_gen_simplified_getitem, if_pos hneg] at hok
      simp at hok
    · rw [getitem_fibPrefixList hm (by omega)] at hok
      simp only [Except.ok.injEq, Prod.mk.injEq] at hok
      obtain ⟨-, hs⟩ := hok
      exact ⟨max m (index.toNat + 1), by omega, hs.symm⟩

/-! ## Claim theorems for `ЛР1/fib.py` -/

/-- C1: for every `n`, the stateful iterator, the memoized accessor, the
lazy generator and the coroutine all produce the reference Fibonacci value
`fibRef n` (with F(0)=0, F(1)=1), and the first 15 terms of each access
pattern are `[0,1,1,2,3,5,8,13,21,34,55,89,144,233,377]`. -/
theorem fib_variants_agree :
    (∀ n : Nat, fib_gen_nth n = (fibRef n : Int)) ∧
    (∀ n : Nat, ∃ seq',
      fib_gen_simplified_getitem fib_gen_simplified_init (n : Int) =
        .ok (fibRef n, seq')) ∧
    (∀ n : Nat, fibonacchi_gen_nth n = fibRef n) ∧
    (∀ n : Nat, fibonacchi_korutina (n : Int) = fibRef n) ∧
    (List.range 15).map fib_gen_nth =
      ([0, 1, 1, 2, 3, 5, 8, 13, 21, 34, 55, 89, 144, 233, 377] : List Int) ∧
    fib_gen_simplified_iter fib_gen_simplified_init 15 0 =
      [0, 1, 1, 2, 3, 5, 8, 13, 21, 34, 55, 89, 144, 233, 377] ∧
    (List.range 15).map fibonacchi_gen_nth =
      [0, 1, 1, 2, 3, 5, 8, 13, 21, 34, 55, 89, 144, 233, 377] ∧
    (List.range 15).map (fun i => fibonacchi_korutina (i : Int)) =
      [0, 1, 1, 2, 3, 5, 8, 13, 21, 34, 55, 89, 144, 233, 377] := by
  refine ⟨?_, ?_, ?_, ?_, by decide, by decide, by decide, by decide⟩
  · intro n
    rw [fib_gen_nth, fib_gen_state_eq]
    rfl
  · intro n
    refine ⟨fibPrefixList (max 2 (n + 1)), ?_⟩
    rw [fib_gen_simplified_init_eq,
      getitem_fibPrefixList (le_refl 2) (Int.natCast_nonneg n), Int.toNat_natCast]
  · intro n
    rw [fibonacchi_gen_nth, fibonacchi_gen_state_eq]
  · intro n
    rw [fibonacchi_korutina, Int.toNat_natCast, fibonacchi_korutina_pair_eq]

/-- C3: on a fresh memoized accessor, index 0 returns 0 without error and
leaves the cache untouched; every negative index, on every cache state,
raises the invalid-index error. -/
theorem fib_gen_simplified_zero_and_negative :
    fib_gen_simplified_getitem fib_gen_simplified_init 0 =
      .ok (0, fib_gen_simplified_init) ∧
    ∀ (seq : List Nat) (i : Int), i < 0 →
      fib_gen_simplified_getitem seq i = .error "Negative indices not supported" := by
  constructor
  · rfl
  · intro seq i h
    rw [fib_gen_simplified_getitem, if_pos h]

/-- Witness for C3 at the concrete negative index -1. -/
theorem fib_gen_simplified_zero_and_negative_witness :
    fib_gen_simplified_getitem [0, 1] (-1) = .error "Negative indices not supported" :=
  fib_gen_simplified_zero_and_negative.2 [0, 1] (-1) (by decide)

/-- C4: on every reachable cache, every populated entry equals the
corresponding Fibonacci number, the cache holds at least the two seeds, and
a successful `__getitem__` never changes or removes existing entries and
grows the length exactly to `max (current length) (index + 1)`. -/
theorem fib_gen_simplified_cache_invariant :
    ∀ seq : List Nat, FibSimplReachable seq →
      (∀ i : Nat, i < seq.length → seq.getD i 0 = fibRef i) ∧
      2 ≤ seq.length ∧
      (∀ (index : Int) (v : Nat) (seq' : List Nat),
        fib_gen_simplified_getitem seq index = .ok (v, seq') →
        seq.length ≤ seq'.length ∧
        seq'.length = max seq.length (index.toNat + 1) ∧
        ∀ i : Nat, i < seq.length → seq'.getD i 0 = seq.getD i 0) := by
  intro seq h
  obtain ⟨m, hm, rfl⟩ := reachable_fibPrefixList h
  refine ⟨?_, ?_, ?_⟩
  · intro i hi
    rw [fibPrefixList_length] at hi
    exact fibPrefixList_getD hi
  · rw [fibPrefixList_length]
    exact hm
  · intro index v seq' hok
    by_cases hneg : index < 0
    · rw [fib_gen_simplified_getitem, if_pos hneg] at hok
      simp at hok
    · rw [getitem_fibPrefixList hm (by omega)] at hok
      simp only [Except.ok.injEq, Prod.mk.injEq] at hok
      obtain ⟨-, hs⟩ := hok
      subst hs
      refine ⟨by rw [fibPrefixList_length, fibPrefixList_length]; omega,
        by rw [fibPrefixList_length, fibPrefixList_length], ?_⟩
      intro i hi
      rw [fibPrefixList_length] at hi
      rw [fibPrefixList_getD hi, fibPrefixList_getD (by omega)]

/-- Witness for C4 on the fresh cache `[0, 1]`. -/
theorem fib_gen_simplified_cache_invariant_witness :
    ([0, 1] : List Nat).getD 1 0 = fibRef 1 ∧ 2 ≤ ([0, 1] : List Nat).length :=
  ⟨(fib_gen_simplified_cache_invariant [0, 1] FibSimplReachable.init).1 1 (by decide),
   (fib_gen_simplified_cache_invariant [0, 1] FibSimplReachable.init).2.1⟩

/-- C8: the iterator's in-place update `b += a; a = b - a` agrees with the
specified pair recurrence `(a, b) → (b, a + b)` on every state, hence the
two embeddings have identical states and identical outputs from `(0, 1)`. -/
theorem fib_gen_refines_spec :
    (∀ s : Int × Int, fib_gen_next s = specFibStep s) ∧
    (∀ n : Nat, fib_gen_state n = specFibState n) ∧
    (∀ n : Nat, fib_gen_nth n = specFibNth n) := by
  have hstep : ∀ s : Int × Int, fib_gen_next s = specFibStep s := by
    intro s
    obtain ⟨a, b⟩ := s
    show (a, (b + a - a, b + a)) = (a, (b, a + b))
    rw [add_sub_cancel_right, add_comm b a]
  have hstate : ∀ n : Nat, fib_gen_state n = specFibState n := by
    intro n
    induction n with
    | zero => rfl
    | succ n ih => rw [fib_gen_state, specFibState, hstep, ih]
  refine ⟨hstep, hstate, ?_⟩
  intro n
  rw [fib_gen_nth, specFibNth, hstep, hstate]

/-- C9: sending any negative index to the coroutine makes its `for` loop
run zero times, so it yields the initial value 0. -/
theorem fibonacchi_korutina_negative (i : Int) (h : i < 0) :
    fibonacchi_korutina i = 0 := by
  rw [fibonacchi_korutina, Int.toNat_eq_zero.mpr (le_of_lt h)]
  rfl

/-- Witness for C9 at the concrete negative index -7. -/
theorem fibonacchi_korutina_negative_witness : fibonacchi_korutina (-7) = 0 :=
  fibonacchi_korutina_negative (-7) (by decide)

/-! ## Lemmas about the CSV flattening and the decorator chain -/

theorem flatten_rows_total :
    ∀ vs : List (String × PyVal),
      (∀ q ∈ vs, ∃ fields, q.2 = PyVal.pdict fields) →
      ∃ rows, flatten_rows vs = .ok rows ∧ rows.length = vs.length := by
  intro vs
  induction vs with
  | nil => intro _; exact ⟨[], rfl, rfl⟩
  | cons q rest ih =>
    intro h
    obtain ⟨code, info⟩ := q
    obtain ⟨fields, hq⟩ := h (code, info) (List.mem_cons_self _ _)
    replace hq : info = PyVal.pdict fields := hq
    subst hq
    obtain ⟨rows, hrows, hlen⟩ := ih (fun r hr => h r (List.mem_cons_of_mem _ hr))
    refine ⟨flatten_row code fields :: rows, ?_, by simp [hlen]⟩
    simp [flatten_rows, hrows]

theorem get_data_yaml_shape (p : CurrencyProvider) :
    (∃ s, get_data (.YamlDecorator p) = .ok (.pstr s)) ∨
    (∃ e, get_data (.YamlDecorator p) = .error e) := by
  cases hg : get_data p with
  | ok raw => exact Or.inl ⟨yamlDump raw, by simp [get_data, hg]⟩
  | error e => exact Or.inr ⟨e, by simp [get_data, hg]⟩

theorem get_data_csv_shape (p : CurrencyProvider) :
    (∃ s, get_data (.CsvDecorator p) = .ok (.pstr s)) ∨
    (∃ e, get_data (.CsvDecorator p) = .error e) := by
  cases hg : get_data p with
  | error e => exact Or.inr ⟨e, by simp [get_data, hg]⟩
  | ok raw =>
    cases hf : flatten_data raw with
    | error e => exact Or.inr ⟨e, by simp [get_data, hg, hf]⟩
    | ok rows => exact Or.inl ⟨csv_render rows, by simp [get_data, hg, hf]⟩

/-! ## Claim theorems for `ЛР2/main.py` -/

/-- C2: the CSV transform of the dataset with the single USD record yields
exactly the header record `CharCode,Name,Value,Nominal` followed by the
data record `USD,Доллар,90.0,1`, each ended by the writer's `\r\n`
terminator. -/
theorem csv_concrete_dataset :
    get_data (.CsvDecorator (.CBRProvider usdDataset)) =
      .ok (.pstr "CharCode,Name,Value,Nominal\r\nUSD,Доллар,90.0,1\r\n") ∧
    crlfLines "CharCode,Name,Value,Nominal\r\nUSD,Доллар,90.0,1\r\n" =
      ["CharCode,Name,Value,Nominal", "USD,Доллар,90.0,1", ""] :=
  ⟨rfl, by decide⟩

/-- C5 as written is false: the decorators append their extension whenever
the name does not already end in that specific extension, not exactly when
the path lacks an extension.  At `"rates.txt"` (which has an extension,
so the claim predicts no append) the YAML decorator writes to
`"rates.txt.yaml"`, and at `"rates.yaml"` the CSV decorator writes to
`"rates.yaml.csv"`. -/
theorem save_extension_counterexample :
    claimYamlSaveName "rates.txt" = "rates.txt" ∧
    claimCsvSaveName "rates.yaml" = "rates.yaml" ∧
    save_to_file (.YamlDecorator (.CBRProvider (.pdict []))) "rates.txt" =
      .ok ("rates.txt.yaml", yamlDump (.pdict [])) ∧
    save_to_file (.CsvDecorator (.CBRProvider (.pdict []))) "rates.yaml" =
      .ok ("rates.yaml.csv", "") ∧
    ("rates.txt.yaml" : String) ≠ "rates.txt" ∧
    ("rates.yaml.csv" : String) ≠ "rates.yaml" :=
  ⟨rfl, rfl, rfl, rfl, by decide, by decide⟩

/-- C5 amended: the YAML decorator appends `.yaml` exactly when the path
does not already end in `.yaml` or `.yml`, the CSV decorator appends
`.csv` exactly when the path does not already end in `.csv`, and in both
cases the text written is the local `get_data()` output verbatim. -/
theorem save_appends_extension :
    ∀ (p : CurrencyProvider) (filename fn out : String),
      (save_to_file (.YamlDecorator p) filename = .ok (fn, out) →
        fn = (if strEndsWith filename ".yaml" || strEndsWith filename ".yml"
          then filename else filename ++ ".yaml") ∧
        get_data (.YamlDecorator p) = .ok (.pstr out)) ∧
      (save_to_file (.CsvDecorator p) filename = .ok (fn, out) →
        fn = (if strEndsWith filename ".csv" then filename
          else filename ++ ".csv") ∧
        get_data (.CsvDecorator p) = .ok (.pstr out)) := by
  intro p filename fn out
  constructor
  · intro hsave
    rcases get_data_yaml_shape p with ⟨s, hg⟩ | ⟨e, hg⟩
    · simp only [save_to_file, hg] at hsave
      simp only [Except.ok.injEq, Prod.mk.injEq] at hsave
      obtain ⟨h1, h2⟩ := hsave
      exact ⟨h1.symm, by rw [hg, h2]⟩
    · simp only [save_to_file, hg] at hsave
      simp at hsave
  · intro hsave
    rcases get_data_csv_shape p with ⟨s, hg⟩ | ⟨e, hg⟩
    · simp only [save_to_file, hg] at hsave
      simp only [Except.ok.injEq, Prod.mk.injEq] at hsave
      obtain ⟨h1, h2⟩ := hsave
      exact ⟨h1.symm, by rw [hg, h2]⟩
    · simp only [save_to_file, hg] at hsave
      simp at hsave

/-- Witness for C5's amended statement: persisting the YAML decorator to
the extensionless path `"rates"` writes `"rates.yaml"`, and the text is
the local `get_data()` output. -/
theorem save_appends_extension_witness :
    ("rates.yaml" : String) =
      (if strEndsWith "rates" ".yaml" || strEndsWith "rates" ".yml" then "rates"
        else "rates" ++ ".yaml") ∧
    get_data (.YamlDecorator (.CBRProvider (.pdict []))) =
      .ok (.pstr "\x7b\x7d\n") :=
  (save_appends_extension (.CBRProvider (.pdict [])) "rates" "rates.yaml"
    "\x7b\x7d\n").1 rfl

/-- C6: wrapping decorators applies transforms inner-to-outer: for any
inner provider returning a well-formed dataset, the YAML-over-CSV chain
returns the YAML dump of the CSV text of the inner data, and no step
raises. -/
theorem decorator_composition :
    ∀ (p : CurrencyProvider) (kvs : List (String × PyVal)),
      get_data p = .ok (.pdict kvs) → WellFormedDataset kvs →
      ∃ rows, flatten_data (.pdict kvs) = .ok rows ∧
        get_data (.CsvDecorator p) = .ok (.pstr (csv_render rows)) ∧
        get_data (.YamlDecorator (.CsvDecorator p)) =
          .ok (.pstr (yamlDump (.pstr (csv_render rows)))) := by
  intro p kvs hp hwf
  have hflat : ∃ rows, flatten_data (.pdict kvs) = .ok rows := by
    cases hl : List.lookup "Valute" kvs with
    | none => exact ⟨[], by simp [flatten_data, hl, flatten_rows]⟩
    | some v =>
      obtain ⟨vs, rfl, hall⟩ := hwf v hl
      obtain ⟨rows, hrows, -⟩ := flatten_rows_total vs hall
      exact ⟨rows, by simp [flatten_data, hl, hrows]⟩
  obtain ⟨rows, hrows⟩ := hflat
  exact ⟨rows, hrows, by simp [get_data, hp, hrows], by simp [get_data, hp, hrows]⟩

/-- Witness for C6 at the concrete USD dataset. -/
theorem decorator_composition_witness :
    ∃ rows, flatten_data (.pdict usdEntries) = .ok rows ∧
      get_data (.CsvDecorator (.CBRProvider usdDataset)) =
        .ok (.pstr (csv_render rows)) ∧
      get_data (.YamlDecorator (.CsvDecorator (.CBRProvider usdDataset))) =
        .ok (.pstr (yamlDump (.pstr (csv_render rows)))) :=
  decorator_composition (.CBRProvider usdDataset) usdEntries rfl
    (fun v hv => by
      rw [show List.lookup "Valute" usdEntries = some (.pdict [("USD", usdRecord)])
        from rfl] at hv
      cases hv
      exact ⟨[("USD", usdRecord)], rfl, fun q hq => by
        rw [List.mem_singleton] at hq
        subst hq
        exact ⟨usdFields, rfl⟩⟩)

/-- C7: when the `Valute` entry is absent or an empty mapping, the CSV
transform returns the empty string — no header, no error. -/
theorem csv_empty_valute :
    ∀ (p : CurrencyProvider) (kvs : List (String × PyVal)),
      get_data p = .ok (.pdict kvs) →
      (List.lookup "Valute" kvs = none ∨
        List.lookup "Valute" kvs = some (.pdict [])) →
      get_data (.CsvDecorator p) = .ok (.pstr "") := by
  intro p kvs hp h
  have hflat : flatten_data (.pdict kvs) = .ok [] := by
    cases h with
    | inl h => simp [flatten_data, h, flatten_rows]
    | inr h => simp [flatten_data, h, flatten_rows]
  simp [get_data, hp, hflat, csv_render]

/-- Witness for C7 at a dataset with no `Valute` entry. -/
theorem csv_empty_valute_witness :
    get_data (.CsvDecorator (.CBRProvider (.pdict []))) = .ok (.pstr "") :=
  csv_empty_valute (.CBRProvider (.pdict [])) [] rfl (Or.inl rfl)

/-- C10: row construction is total over arbitrary record dicts — flattening
succeeds with one row per currency — and a record missing a field gets the
defaults: `CharCode` falls back to the mapping key, `Name` to the empty
string, `Value` to 0 and `Nominal` to 1. -/
theorem flatten_total_defaults :
    (∀ (kvs vs : List (String × PyVal)),
      List.lookup "Valute" kvs = some (.pdict vs) →
      (∀ q ∈ vs, ∃ fields, q.2 = PyVal.pdict fields) →
      ∃ rows, flatten_data (.pdict kvs) = .ok rows ∧ rows.length = vs.length) ∧
    (∀ (code : String) (fields : List (String × PyVal)),
      (List.lookup "CharCode" fields = none →
        (flatten_row code fields).charCode = .pstr code) ∧
      (List.lookup "Name" fields = none →
        (flatten_row code fields).name = .pstr "") ∧
      (List.lookup "Value" fields = none →
        (flatten_row code fields).value = .pnum "0") ∧
      (List.lookup "Nominal" fields = none →
        (flatten_row code fields).nominal = .pnum "1")) := by
  constructor
  · intro kvs vs hl hall
    obtain ⟨rows, hrows, hlen⟩ := flatten_rows_total vs hall
    exact ⟨rows, by simp [flatten_data, hl, hrows], hlen⟩
  · intro code fields
    refine ⟨fun h => ?_, fun h => ?_, fun h => ?_, fun h => ?_⟩ <;>
      simp [flatten_row, h]

/-- Witness for C10: the USD dataset flattens to one row, and a record
with no fields falls back to the mapping key for `CharCode`. -/
theorem flatten_total_defaults_witness :
    (∃ rows, flatten_data (.pdict usdEntries) = .ok rows ∧ rows.length = 1) ∧
    (flatten_row "XYZ" []).charCode = .pstr "XYZ" :=
  ⟨flatten_total_defaults.1 usdEntries [("USD", usdRecord)] rfl
      (fun q hq => by
        rw [List.mem_singleton] at hq
        subst hq
        exact ⟨usdFields, rfl⟩),
   (flatten_total_defaults.2 "XYZ" []).1 rfl⟩
